import Mathlib

/- Verification of the w3-faucet drip transaction lifecycle & reconciliation
   engine: a shallow embedding of the worker pipeline (apps/worker/src/worker.ts),
   the retry policy (packages/shared/src/retry.ts), the Redis locks, and the
   reconciler (reconciler module), with theorems checking the specification's
   claims against these definitions. -/

/- ## Normalized error model

   JS errors are inspected through three views (retry.ts toCode/toStatus/toMsg):
   a symbolic code (uppercased), an HTTP status (NaN when absent, modelled as
   `none`), and a message (lowercased).  We carry the raw fields and apply the
   case conversions in the predicates, as the source does. -/

structure Err where
  status : Option Int
  code : String
  msg : String
deriving Repr, DecidableEq

/- `leadMatch pat l` holds when `pat` is an initial segment of `l`. -/
def leadMatch : List Char → List Char → Bool
  | [], _ => true
  | _ :: _, [] => false
  | a :: as, b :: bs => a == b && leadMatch as bs

/- `hasSub pat l` holds when `pat` occurs contiguously inside `l`. -/
def hasSub (pat : List Char) : List Char → Bool
  | [] => pat.isEmpty
  | c :: rest => leadMatch pat (c :: rest) || hasSub pat rest

/- `strContains s pat` models JS `s.includes(pat)` (and a literal regex
   test). -/
def strContains (s pat : String) : Bool := hasSub pat.data s.data

/- Per-character ASCII case conversion, as JS toUpperCase/toLowerCase act on
   the character ranges these error strings use. -/
def strLower (s : String) : String := String.mk (s.data.map Char.toLower)

def strUpper (s : String) : String := String.mk (s.data.map Char.toUpper)

def toCode (e : Err) : String := strUpper e.code

def toMsg (e : Err) : String := strLower e.msg

/- retry.ts isRetryableError, lines 18-33.  The message regex
   ec?onn?(refused|reset)|timed?out|dns|socket|temporar|unreachable|network
   is expanded into its finite list of literal alternatives; the 403 regex
   rate|quota|throttle|forbidden.*rate is equivalent to rate|quota|throttle
   since any match of forbidden.*rate contains "rate". -/
def connMsgPatterns : List String :=
  ["eonrefused", "eonreset", "eonnrefused", "eonnreset",
   "econrefused", "econreset", "econnrefused", "econnreset",
   "timeout", "timedout", "dns", "socket", "temporar", "unreachable", "network"]

def isRetryableError (e : Err) : Bool :=
  let code := toCode e
  let msg := toMsg e
  if strContains code "NETWORK" || strContains code "TIMEOUT" then true
  else if connMsgPatterns.any (fun p => strContains msg p) then true
  else if e.status == some 429 then true
  else if (match e.status with
           | some s => 500 ≤ s && s < 600
           | none => false) then true
  else if e.status == some 403 &&
          (strContains msg "rate" || strContains msg "quota" || strContains msg "throttle") then true
  else false

/- retry.ts lines 56-59: the fail-fast classification inside retryRpc. -/
def failFast (e : Err) : Bool :=
  e.status == some 400 || e.status == some 401 ||
  strContains (toCode e) "CALL_EXCEPTION" || strContains (toCode e) "UNPREDICTABLE_GAS_LIMIT" ||
  strContains (toMsg e) "revert" || strContains (toMsg e) "execution reverted" ||
  strContains (toMsg e) "invalid argument" || strContains (toMsg e) "invalid address" ||
  strContains (toMsg e) "insufficient funds" || strContains (toMsg e) "bad response"

/- ## retryRpc (retry.ts lines 40-70)

   The wrapped operation is an oracle `ops : Nat → Except Err α` giving the
   outcome of each call; call number k is made with the loop's `attempt`
   counter equal to k (the counter advances exactly once per retried failure).
   `Math.random()` draws are an oracle `rand : Nat → ℚ` indexed by attempt.
   Sleeping is recorded, not performed; delays are in integer milliseconds. -/

def MAX_DELAY_MS : Nat := 15000

/- jitterMult r models 1.10 + Math.random() * 0.15 (retry.ts line 64). -/
def jitterMult (r : ℚ) : ℚ := 11 / 10 + r * (15 / 100)

/- retry.ts lines 63-65: base = min(baseDelayMs * 2^attempt, 15000);
   delay = min(floor(base * jitterMult), 15000). -/
def backoffDelay (baseDelayMs attempt : Nat) (r : ℚ) : ℤ :=
  let base : Nat := min (baseDelayMs * 2 ^ attempt) MAX_DELAY_MS
  min (Int.floor ((base : ℚ) * jitterMult r)) (MAX_DELAY_MS : ℤ)

structure RetryOutcome (α : Type) where
  result : Except Err α
  calls : Nat
  sleeps : List ℤ
deriving Repr

/- The while-true loop of retryRpc.  Each iteration makes one call; a failure
   is rethrown when fail-fast, or the attempt counter has reached maxRetries,
   or the error is not retryable; otherwise the computed delay is slept and the
   counter advances.  The loop always terminates within maxRetries + 1 calls,
   so fuel = maxRetries + 1 at entry is never exhausted (the fuel-0 branch is
   unreachable). -/
def retryRpcAux {α : Type} (ops : Nat → Except Err α) (maxRetries baseDelayMs : Nat)
    (rand : Nat → ℚ) : Nat → Nat → List ℤ → RetryOutcome α
  | 0, attempt, sleeps => ⟨.error ⟨none, "", "fuel exhausted"⟩, attempt, sleeps⟩
  | fuel + 1, attempt, sleeps =>
    match ops attempt with
    | .ok v => ⟨.ok v, attempt + 1, sleeps⟩
    | .error e =>
      if failFast e || decide (attempt ≥ maxRetries) || !isRetryableError e then
        ⟨.error e, attempt + 1, sleeps⟩
      else
        retryRpcAux ops maxRetries baseDelayMs rand fuel (attempt + 1)
          (sleeps ++ [backoffDelay baseDelayMs attempt (rand attempt)])

def retryRpc {α : Type} (ops : Nat → Except Err α) (maxRetries : Nat := 3)
    (baseDelayMs : Nat := 500) (rand : Nat → ℚ := fun _ => 0) : RetryOutcome α :=
  retryRpcAux ops maxRetries baseDelayMs rand (maxRetries + 1) 0 []

/- ## Request rows and the SQL status updates

   Row mirrors the requests table columns the core touches (id, status,
   tx_hash, reason); status values per the check constraint in
   sql/004_broadcast_idx.sql. -/

inductive Status where
  | queued
  | broadcast
  | sent
  | failed
deriving Repr, DecidableEq

structure Row where
  id : Nat
  status : Status
  tx_hash : Option String
  reason : Option String
deriving Repr, DecidableEq

/- worker.ts line 99 / line 151: UPDATE requests SET status='failed',
   reason=$1 WHERE id=$2 — unconditional on the matched row. -/
def workerFailedUpdate (reason : String) (r : Row) : Row :=
  { r with status := .failed, reason := some reason }

/- worker.ts line 133: UPDATE requests SET status='broadcast', tx_hash=$1
   WHERE id=$2. -/
def markBroadcast (h : String) (r : Row) : Row :=
  { r with status := .broadcast, tx_hash := some h }

/- worker.ts line 138: UPDATE requests SET status='sent' WHERE id=$1 AND
   tx_hash=$2 — the WHERE clause guards on the recorded hash. -/
def workerSentUpdate (h : String) (r : Row) : Row :=
  if r.tx_hash == some h then { r with status := .sent } else r

/- Reconciler line 80: UPDATE requests SET status='sent' WHERE id=$1 —
   no guard beyond the id. -/
def reconcilerSentUpdate (r : Row) : Row :=
  { r with status := .sent }

/- Reconciler lines 68-71 / 82-85: UPDATE requests SET status='failed',
   reason=$1 WHERE id=$2 — no guard beyond the id. -/
def reconcilerFailedUpdate (reason : String) (r : Row) : Row :=
  { r with status := .failed, reason := some reason }

/- ## Reconciler per-row resolution (reconciler lines 66-91)

   The receipt lookup through retryRpc either throws (caught, row untouched),
   returns null (still pending), or returns a receipt whose status is compared
   with 1 and 0. -/

inductive LookupRes where
  | rpcError
  | noReceipt
  | receipt (st : Option Int)
deriving Repr, DecidableEq

/- The decision is taken on the fetched row's tx_hash (`!r.tx_hash` is JS
   falsy: null or empty string); the SET clause is applied to the current
   row `cur`. -/
def reconcileUpdateFor (lookup : String → LookupRes) (fetched cur : Row) : Row :=
  match fetched.tx_hash with
  | none => reconcilerFailedUpdate "missing tx_hash in broadcast state" cur
  | some h =>
    if h = "" then reconcilerFailedUpdate "missing tx_hash in broadcast state" cur
    else
      match lookup h with
      | .rpcError => cur
      | .noReceipt => cur
      | .receipt st =>
        if st == some 1 then reconcilerSentUpdate cur
        else if st == some 0 then reconcilerFailedUpdate "transaction reverted" cur
        else cur

/- One reconciler resolution step applied to a row in place (the fetched
   snapshot and the updated row coincide). -/
def reconcileRowOn (lookup : String → LookupRes) (r : Row) : Row :=
  reconcileUpdateFor lookup r r

/- ## Reconciler sweep (reconciler lines 57-96) -/

def RECONCILE_BATCH : Nat := 200
def RECONCILE_MAX_LOOPS : Nat := 20

/- SELECT id, tx_hash FROM requests WHERE status='broadcast' ORDER BY
   created_at ASC LIMIT $1 — the table list is taken to be in created_at
   order. -/
def fetchBroadcast (table : List Row) (batch : Nat) : List Row :=
  (table.filter (fun r => r.status == .broadcast)).take batch

def applyUpdateById (table : List Row) (i : Nat) (f : Row → Row) : List Row :=
  table.map (fun r => if r.id == i then f r else r)

def processFetched (lookup : String → LookupRes) (table : List Row)
    (fetched : List Row) : List Row :=
  fetched.foldl (fun t r => applyUpdateById t r.id (reconcileUpdateFor lookup r)) table

/- while (loops++ < MAX_LOOPS): fetch a batch; stop on empty; process; stop
   early when the batch came back short. -/
def reconcileLoopAux (lookup : String → LookupRes) (batch : Nat) :
    Nat → List Row → List Row
  | 0, table => table
  | fuel + 1, table =>
    let rows := fetchBroadcast table batch
    if rows.length = 0 then table
    else
      let t2 := processFetched lookup table rows
      if rows.length < batch then t2
      else reconcileLoopAux lookup batch fuel t2

def reconcileBroadcastsOnce (lookup : String → LookupRes) (table : List Row) : List Row :=
  reconcileLoopAux lookup RECONCILE_BATCH RECONCILE_MAX_LOOPS table

/- ## Redis locks

   The key-value store is modelled as a map from keys to current values;
   TTL expiry is not modelled (real time).  Each Redis command is a single
   atomic step on the store, as Redis executes commands serially. -/

def Store : Type := String → Option String

/- SET key value NX: succeeds only when the key is absent. -/
def redisSetNX (store : Store) (key value : String) : Store × Bool :=
  match store key with
  | some _ => (store, false)
  | none => (fun k => if k = key then some value else store k, true)

/- worker.ts lines 35-38: the signer (nonce) lock stores the constant "1". -/
def workerAcquireLock (store : Store) (key : String) : Store × Bool :=
  redisSetNX store key "1"

/- worker.ts line 49: releaseLock is an unconditional DEL of the key. -/
def workerReleaseLock (store : Store) (key : String) : Store :=
  fun k => if k = key then none else store k

/- Reconciler lines 48-52: the reconciler lock stores a fresh random token
   (the randHex(8) draw is the `token` oracle argument). -/
def tryAcquireLock (store : Store) (key token : String) : Store × Option String :=
  let res := redisSetNX store key token
  (res.1, if res.2 then some token else none)

/- Reconciler lines 40-46, 53-55: UNLOCK_LUA — GET then DEL only on a token
   match, executed atomically as one Lua script. -/
def reconReleaseLock (store : Store) (key token : String) : Store :=
  if store key == some token then (fun k => if k = key then none else store k)
  else store

/- ## Worker error helpers (worker.ts lines 74-87) -/

/- worker.ts isPermanentError: status 400/401, ethers call-exception codes, or
   a message matching revert|execution reverted|invalid argument|invalid
   address|insufficient funds (the message is lowercased first, so the
   case-insensitive regex reduces to substring tests). -/
def isPermanentError (e : Err) : Bool :=
  e.status == some 400 || e.status == some 401 ||
  strContains (toCode e) "CALL_EXCEPTION" || strContains (toCode e) "UNPREDICTABLE_GAS_LIMIT" ||
  strContains (toMsg e) "revert" || strContains (toMsg e) "execution reverted" ||
  strContains (toMsg e) "invalid argument" || strContains (toMsg e) "invalid address" ||
  strContains (toMsg e) "insufficient funds"

/- worker.ts formatReason: String(err.message).slice(0, 400). -/
def formatReason (e : Err) : String :=
  String.mk (e.msg.data.take 400)

/- ## Fee suggestion (worker.ts lines 54-69)

   bumpBig scales by round(mult*100) in BigInt arithmetic; with the default
   MAX_FEE_BUMP_MULT = 1.25 the scale is 125.  getFeeSuggestion fills the
   nullable provider fee fields with the source's floors before bumping. -/

def bumpBig (x : Nat) (multTimes100 : Nat) : Nat :=
  x * multTimes100 / 100

def MAX_FEE_BUMP_TIMES100 : Nat := 125

structure FeeData where
  gasPrice : Option Nat
  maxPriorityFeePerGas : Option Nat
  maxFeePerGas : Option Nat
deriving Repr, DecidableEq

structure FeeSugg where
  maxPriorityFeePerGas : Nat
  maxFeePerGas : Nat
  gasPrice : Nat
deriving Repr, DecidableEq

def getFeeSuggestion (fd : FeeData) : FeeSugg :=
  let gasPrice := fd.gasPrice.getD (10 ^ 9)
  let maxPrio := fd.maxPriorityFeePerGas.getD (gasPrice / 2)
  let maxFee := fd.maxFeePerGas.getD (gasPrice + maxPrio)
  ⟨bumpBig maxPrio MAX_FEE_BUMP_TIMES100,
   bumpBig maxFee MAX_FEE_BUMP_TIMES100,
   bumpBig gasPrice MAX_FEE_BUMP_TIMES100⟩

/- ## The per-job pipeline (worker.ts lines 94-159)

   Network and queue collaborators are oracles carried in PipeIn; each
   `Except` field is the outcome of the corresponding (retryRpc-wrapped)
   call.  The handler's durable effects are recorded as an event trace; the
   handler's own termination is `ok` (normal return, job acknowledged) or
   `thrown e` (exception escapes to the queue for redelivery). -/

def TX_WAIT_TIMEOUT_MS : Nat := 120000

inductive Ev where
  | dbFailedWrite (reason : String)
  | dbBroadcastWrite (hash : String)
  | dbSentWrite (hash : String)
  | sendTx (hash : String)
  | waitStart (hash : String)
  | lockRelease
deriving Repr, DecidableEq

inductive PipeResult where
  | ok
  | thrown (e : Err)
deriving Repr, DecidableEq

def insufficientErr : Err :=
  ⟨none, "", "insufficient funds in faucet wallet for amount+fees"⟩

def lockErr : Err :=
  ⟨none, "", "nonce lock not acquired (backoff exhausted)"⟩

structure PipeIn where
  addrValid : Bool
  lockGot : Bool
  amountWei : Nat
  fallbackGasLimit : Nat
  gasRes : Except Err Nat
  feeRes : Except Err FeeData
  balRes : Except Err Nat
  sendRes : Except Err String
  waitRes : Except Err Unit

/- worker.ts lines 149-156: the catch-all persists the Failed row with the
   truncated reason, then swallows permanent and non-retryable errors and
   rethrows retryable ones. -/
def classifyEscape (e : Err) : PipeResult :=
  if isPermanentError e then .ok
  else if !isRetryableError e then .ok
  else .thrown e

def catchAllRun (e : Err) : List Ev × PipeResult :=
  ([.dbFailedWrite (formatReason e)], classifyEscape e)

/- The try block (worker.ts lines 107-156): gas estimation failures fall back
   to the configured gas limit; fee, balance and send failures escape to the
   catch-all; a successful send is durably recorded as Broadcast before the
   confirmation wait starts; a wait error whose message contains "timeout"
   returns normally, any other wait error escapes. -/
/- worker.ts lines 111-114: the inner try around estimateGas swallows any
   error and falls back to the configured constant gas limit. -/
def resolvedGasLimit (inp : PipeIn) : Nat :=
  match inp.gasRes with
  | .ok g => g
  | .error _ => inp.fallbackGasLimit

def tryBlock (inp : PipeIn) : List Ev × PipeResult :=
  match inp.feeRes with
  | .error e => catchAllRun e
  | .ok fd =>
    match inp.balRes with
    | .error e => catchAllRun e
    | .ok bal =>
      if bal < inp.amountWei + (getFeeSuggestion fd).maxFeePerGas * resolvedGasLimit inp then
        catchAllRun insufficientErr
      else
        match inp.sendRes with
        | .error e => catchAllRun e
        | .ok h =>
          let pre : List Ev := [.sendTx h, .dbBroadcastWrite h, .waitStart h]
          match inp.waitRes with
          | .ok _ => (pre ++ [.dbSentWrite h], .ok)
          | .error e =>
            if strContains (strLower e.msg) "timeout" then (pre, .ok)
            else (pre ++ (catchAllRun e).1, (catchAllRun e).2)

/- The whole handler: invalid recipient is a permanent failure without
   touching the lock; a lock-acquisition failure throws before the try block
   (no release); otherwise the try/catch runs and the finally step always
   releases the lock. -/
def pipeline (inp : PipeIn) : List Ev × PipeResult :=
  if inp.addrValid = false then
    ([.dbFailedWrite "invalid recipient address"], .ok)
  else if inp.lockGot = false then ([], .thrown lockErr)
  else ((tryBlock inp).1 ++ [.lockRelease], (tryBlock inp).2)

/- Replaying the durable writes of a trace onto a row (the database semantics
   of each UPDATE, as in the row-update functions above). -/
def applyEv (r : Row) : Ev → Row
  | .dbFailedWrite reason => workerFailedUpdate reason r
  | .dbBroadcastWrite h => markBroadcast h r
  | .dbSentWrite h => workerSentUpdate h r
  | _ => r

def runEvs (r : Row) (l : List Ev) : Row := l.foldl applyEv r

/- `broadcastBeforeWait seen l` scans a trace and checks that every
   confirmation wait is preceded by a durable Broadcast write of the same
   hash (`seen` collects the hashes persisted so far). -/
def broadcastBeforeWait : List String → List Ev → Bool
  | _, [] => true
  | seen, .dbBroadcastWrite h :: rest => broadcastBeforeWait (h :: seen) rest
  | seen, .waitStart h :: rest => seen.contains h && broadcastBeforeWait seen rest
  | seen, _ :: rest => broadcastBeforeWait seen rest

/- ## Reachable single-row mutations

   One step per status-mutating SQL statement the Pipeline or the Reconciler
   can issue against a row, under each writer's own control flow: the
   reconciler step processes a row it fetched with status broadcast. -/
inductive PStep : Row → Row → Prop
  | invalidAddr (r : Row) : PStep r (workerFailedUpdate "invalid recipient address" r)
  | broadcast (r : Row) (h : String) : PStep r (markBroadcast h r)
  | workerSent (r : Row) (h : String) : PStep r (workerSentUpdate h r)
  | workerFailed (r : Row) (reason : String) : PStep r (workerFailedUpdate reason r)
  | reconcile (r : Row) (lookup : String → LookupRes) :
      r.status = .broadcast → PStep r (reconcileRowOn lookup r)

/- The hash-presence invariant: Broadcast and Sent rows carry a transaction
   hash. -/
def HashInv (r : Row) : Prop :=
  (r.status = .broadcast ∨ r.status = .sent) → r.tx_hash ≠ none

/- ## Claim C1 -/

/-- C1 counterexample: the claim fails for the SignerLock. The key-value store
holds the signer lock key with value "1" (set by some worker); a release by a
caller holding no matching token deletes the key anyway — the key does not stay
unchanged — and a successful acquire stores the constant "1", not a freshly
generated opaque owner token. -/
theorem C1_counterexample :
    (fun k => if k = "nonce-lock:0xabc" then some "1" else none : Store)
        "nonce-lock:0xabc" = some "1" ∧
    workerReleaseLock
        (fun k => if k = "nonce-lock:0xabc" then some "1" else none)
        "nonce-lock:0xabc" "nonce-lock:0xabc" = none ∧
    (workerAcquireLock (fun _ => none) "nonce-lock:0xabc").1 "nonce-lock:0xabc" = some "1" := by
  refine ⟨by simp, ?_, ?_⟩
  · simp [workerReleaseLock]
  · simp [workerAcquireLock, redisSetNX]

/-- C1 (amended): only the ReconcilerLock behaves as claimed — its acquire
stores the fresh token and returns it, and its release is an atomic
check-and-delete that removes the key when the caller's token matches and
leaves the whole store unchanged on a mismatch.  The SignerLock's release
instead deletes the key unconditionally (and its acquire stores the constant
"1"). -/
theorem C1_lock_semantics :
    (∀ (store : Store) (key token : String), store key = none →
      (tryAcquireLock store key token).2 = some token ∧
      (tryAcquireLock store key token).1 key = some token) ∧
    (∀ (store : Store) (key token : String), store key = some token →
      reconReleaseLock store key token key = none) ∧
    (∀ (store : Store) (key token : String), store key ≠ some token →
      reconReleaseLock store key token = store) ∧
    (∀ (store : Store) (key : String), workerReleaseLock store key key = none) := by
  refine ⟨?_, ?_, ?_, ?_⟩
  · intro store key token hnone
    simp [tryAcquireLock, redisSetNX, hnone]
  · intro store key token hsome
    simp [reconReleaseLock, hsome]
  · intro store key token hne
    simp [reconReleaseLock, hne]
  · intro store key
    simp [workerReleaseLock]

/-- C1 witness: the amended lock semantics evaluated on a concrete store:
acquiring the reconciler lock on an empty store stores token "ab12cd34",
releasing with that token deletes the key, and releasing with a stale token
leaves the store unchanged. -/
theorem C1_lock_semantics_witness :
    ((tryAcquireLock (fun _ => none) "reconciler:lock" "ab12cd34").2 = some "ab12cd34" ∧
      (tryAcquireLock (fun _ => none) "reconciler:lock" "ab12cd34").1 "reconciler:lock" =
        some "ab12cd34") ∧
    reconReleaseLock (fun k => if k = "reconciler:lock" then some "ab12cd34" else none)
        "reconciler:lock" "ab12cd34" "reconciler:lock" = none ∧
    reconReleaseLock (fun k => if k = "reconciler:lock" then some "ab12cd34" else none)
        "reconciler:lock" "ffff0000" =
      (fun k => if k = "reconciler:lock" then some "ab12cd34" else none) :=
  ⟨C1_lock_semantics.1 _ _ _ rfl,
   C1_lock_semantics.2.1 _ _ _ (by simp),
   C1_lock_semantics.2.2.1 _ _ _ (by simp)⟩

/- ## Claim C4 -/

/-- C4 counterexample: the Reconciler's Sent update is not guarded by hash or
status: applied to a row the other writer has already moved to Failed, it
overwrites that transition with Sent. -/
theorem C4_counterexample :
    (⟨7, .failed, some "0x1", some "transaction reverted"⟩ : Row).status = .failed ∧
    reconcilerSentUpdate ⟨7, .failed, some "0x1", some "transaction reverted"⟩ =
      ⟨7, .sent, some "0x1", some "transaction reverted"⟩ := by
  exact ⟨rfl, rfl⟩

/-- C4 (amended): only the Pipeline's post-confirmation Sent update is
conditional — it fires exactly on a matching recorded transaction hash and
leaves any other row unchanged.  The Reconciler's Sent and Failed updates and
the Pipeline's Failed update are unconditional by id: they set the target
status whatever the row's current state. -/
theorem C4_update_guards :
    (∀ (h : String) (r : Row), r.tx_hash ≠ some h → workerSentUpdate h r = r) ∧
    (∀ (h : String) (r : Row), r.tx_hash = some h →
      workerSentUpdate h r = { r with status := .sent }) ∧
    (∀ r : Row, (reconcilerSentUpdate r).status = .sent) ∧
    (∀ (reason : String) (r : Row), (reconcilerFailedUpdate reason r).status = .failed) ∧
    (∀ (reason : String) (r : Row), (workerFailedUpdate reason r).status = .failed) := by
  refine ⟨?_, ?_, ?_, ?_, ?_⟩
  · intro h r hne; simp [workerSentUpdate, hne]
  · intro h r heq; simp [workerSentUpdate, heq]
  · intro r; rfl
  · intro reason r; rfl
  · intro reason r; rfl

/-- C4 witness: the guard behavior at concrete rows — a hash mismatch leaves
the row alone, a match moves it to Sent, and the reconciler's update is
unconditional on a Failed row. -/
theorem C4_update_guards_witness :
    workerSentUpdate "0x2" ⟨1, .broadcast, some "0x1", none⟩ =
      ⟨1, .broadcast, some "0x1", none⟩ ∧
    workerSentUpdate "0x1" ⟨1, .broadcast, some "0x1", none⟩ =
      ⟨1, .sent, some "0x1", none⟩ ∧
    (reconcilerSentUpdate ⟨2, .failed, some "0x9", none⟩).status = .sent :=
  ⟨C4_update_guards.1 _ _ (by simp),
   C4_update_guards.2.1 _ _ rfl,
   C4_update_guards.2.2.1 _⟩

/- ## Claim C2 -/

/-- C2 counterexample: a reachable sequence of status-mutating operations
produces a row with status Failed and a non-null transaction hash: a Queued
row is moved to Broadcast with hash "0xdead" by the Pipeline, then the
Reconciler sees a reverted receipt (status 0) and marks it Failed without
clearing the hash. -/
theorem C2_counterexample :
    Relation.ReflTransGen PStep ⟨1, .queued, none, none⟩
      ⟨1, .failed, some "0xdead", some "transaction reverted"⟩ ∧
    (⟨1, .failed, some "0xdead", some "transaction reverted"⟩ : Row).status = .failed ∧
    (⟨1, .failed, some "0xdead", some "transaction reverted"⟩ : Row).tx_hash ≠ none := by
  refine ⟨?_, rfl, by simp⟩
  have h1 := PStep.broadcast ⟨1, .queued, none, none⟩ "0xdead"
  have h2 := PStep.reconcile (markBroadcast "0xdead" ⟨1, .queued, none, none⟩)
    (fun _ => .receipt (some 0)) (by decide)
  have heq : reconcileRowOn (fun _ => .receipt (some 0))
      (markBroadcast "0xdead" ⟨1, .queued, none, none⟩) =
      ⟨1, .failed, some "0xdead", some "transaction reverted"⟩ := by decide
  rw [heq] at h2
  exact Relation.ReflTransGen.head h1 (Relation.ReflTransGen.single h2)

/-- C2 (amended): every status-mutating operation of the Pipeline and the
Reconciler preserves the one direction of the invariant that does hold:
rows with status Broadcast or Sent carry a non-null transaction hash.  The
converse fails: Failed rows reachable through the revert (or missing-hash)
resolution keep their hash. -/
theorem C2_hash_invariant_preserved :
    ∀ r r' : Row, PStep r r' → HashInv r → HashInv r' := by
  intro r r' step hinv
  cases step with
  | invalidAddr => simp [HashInv, workerFailedUpdate]
  | broadcast h => simp [HashInv, markBroadcast]
  | workerSent h =>
    by_cases hb : r.tx_hash = some h
    · simp [HashInv, workerSentUpdate, hb]
    · simpa [HashInv, workerSentUpdate, hb] using hinv
  | workerFailed reason => simp [HashInv, workerFailedUpdate]
  | reconcile lookup hbr =>
    unfold reconcileRowOn reconcileUpdateFor
    cases hr : r.tx_hash with
    | none => simp [HashInv, reconcilerFailedUpdate]
    | some h =>
      by_cases hne : h = ""
      · simp [hne, HashInv, reconcilerFailedUpdate]
      · simp only [hne, if_false]
        cases lookup h with
        | rpcError => exact hinv
        | noReceipt => exact hinv
        | receipt st =>
          by_cases h1 : st = some 1
          · simp [h1, HashInv, reconcilerSentUpdate, hr]
          · by_cases h0 : st = some 0
            · simp [h1, h0, HashInv, reconcilerFailedUpdate]
            · simpa [h1, h0] using hinv

/-- C2 witness: the preservation theorem applied to the concrete Broadcast
step from a fresh Queued row. -/
theorem C2_hash_invariant_preserved_witness :
    HashInv (markBroadcast "0x1" ⟨1, .queued, none, none⟩) :=
  C2_hash_invariant_preserved _ _ (PStep.broadcast _ _)
    (by rintro (h | h) <;> exact absurd h (by decide))

/- ## Claim C9 -/

/- The three-row batch of the claim: a Broadcast row with a null hash, one
   whose lookup succeeds, one whose lookup reports a revert. -/
def threeRows : List Row :=
  [⟨1, .broadcast, none, none⟩,
   ⟨2, .broadcast, some "0xaaa", none⟩,
   ⟨3, .broadcast, some "0xbbb", none⟩]

def threeLookup : String → LookupRes :=
  fun h => if h = "0xaaa" then .receipt (some 1)
           else if h = "0xbbb" then .receipt (some 0)
           else .noReceipt

/-- C9: per fetched Broadcast row, the reconciler marks a null-hash row Failed
with reason "missing tx_hash in broadcast state", leaves a pending row
unchanged, marks a confirmed row Sent, marks a reverted row Failed with reason
"transaction reverted", and leaves any other receipt status unchanged; and one
sweep over the three-row batch yields statuses Failed, Sent, Failed. -/
theorem C9_reconciler_resolution :
    (∀ (lookup : String → LookupRes) (r : Row), r.tx_hash = none →
      reconcileRowOn lookup r =
        { r with status := .failed, reason := some "missing tx_hash in broadcast state" }) ∧
    (∀ (lookup : String → LookupRes) (r : Row) (h : String),
      r.tx_hash = some h → h ≠ "" → lookup h = .noReceipt →
      reconcileRowOn lookup r = r) ∧
    (∀ (lookup : String → LookupRes) (r : Row) (h : String),
      r.tx_hash = some h → h ≠ "" → lookup h = .receipt (some 1) →
      reconcileRowOn lookup r = { r with status := .sent }) ∧
    (∀ (lookup : String → LookupRes) (r : Row) (h : String),
      r.tx_hash = some h → h ≠ "" → lookup h = .receipt (some 0) →
      reconcileRowOn lookup r =
        { r with status := .failed, reason := some "transaction reverted" }) ∧
    (∀ (lookup : String → LookupRes) (r : Row) (h : String) (st : Option Int),
      r.tx_hash = some h → h ≠ "" → lookup h = .receipt st →
      st ≠ some 1 → st ≠ some 0 →
      reconcileRowOn lookup r = r) ∧
    (reconcileBroadcastsOnce threeLookup threeRows).map Row.status =
      [.failed, .sent, .failed] := by
  refine ⟨?_, ?_, ?_, ?_, ?_, by decide⟩
  · intro lookup r hr
    simp [reconcileRowOn, reconcileUpdateFor, hr, reconcilerFailedUpdate]
  · intro lookup r h hr hne hl
    simp [reconcileRowOn, reconcileUpdateFor, hr, hne, hl]
  · intro lookup r h hr hne hl
    simp [reconcileRowOn, reconcileUpdateFor, hr, hne, hl, reconcilerSentUpdate]
  · intro lookup r h hr hne hl
    simp [reconcileRowOn, reconcileUpdateFor, hr, hne, hl, reconcilerFailedUpdate]
  · intro lookup r h st hr hne hl h1 h0
    simp [reconcileRowOn, reconcileUpdateFor, hr, hne, hl, h1, h0]

/-- C9 witness: the per-row cases evaluated at concrete rows — a pending
lookup leaves the row unchanged and a reverted lookup marks it Failed. -/
theorem C9_reconciler_resolution_witness :
    reconcileRowOn (fun _ => .noReceipt) ⟨4, .broadcast, some "0xccc", none⟩ =
      ⟨4, .broadcast, some "0xccc", none⟩ ∧
    reconcileRowOn (fun _ => .receipt (some 0)) ⟨5, .broadcast, some "0xddd", none⟩ =
      ⟨5, .failed, some "0xddd", some "transaction reverted"⟩ :=
  ⟨C9_reconciler_resolution.2.1 _ _ "0xccc" rfl (by decide) rfl,
   C9_reconciler_resolution.2.2.2.1 _ _ "0xddd" rfl (by decide) rfl⟩

/- ## retryRpc run lemmas -/

/- The delays slept by a run of n retried failures starting at a given
   attempt index. -/
def delaysFrom (bD : Nat) (rand : Nat → ℚ) : Nat → Nat → List ℤ
  | _, 0 => []
  | attempt, n + 1 =>
    backoffDelay bD attempt (rand attempt) :: delaysFrom bD rand (attempt + 1) n

theorem delaysFrom_eq_range_map (bD : Nat) (rand : Nat → ℚ) :
    ∀ n attempt : Nat, delaysFrom bD rand attempt n =
      (List.range n).map (fun k => backoffDelay bD (attempt + k) (rand (attempt + k))) := by
  intro n
  induction n with
  | zero => intro attempt; simp [delaysFrom]
  | succ n ih =>
    intro attempt
    rw [delaysFrom, ih (attempt + 1), List.range_succ_eq_map, List.map_cons, List.map_map]
    simp only [Nat.add_zero, Function.comp_def]
    congr 1
    congr 1
    funext k
    rw [show attempt + 1 + k = attempt + k.succ by omega]

theorem retryRpcAux_ok {α : Type} (ops : Nat → Except Err α) (mR bD : Nat)
    (rand : Nat → ℚ) (v : α) :
    ∀ (n fuel attempt : Nat) (sleeps : List ℤ),
      (∀ k, k < n → ∃ e, ops (attempt + k) = .error e ∧
        isRetryableError e = true ∧ failFast e = false) →
      ops (attempt + n) = .ok v →
      attempt + n ≤ mR →
      n < fuel →
      retryRpcAux ops mR bD rand fuel attempt sleeps =
        ⟨.ok v, attempt + n + 1, sleeps ++ delaysFrom bD rand attempt n⟩ := by
  intro n
  induction n with
  | zero =>
    intro fuel attempt sleeps hfail hok hle hfuel
    match fuel, hfuel with
    | fuel + 1, _ =>
      rw [Nat.add_zero] at hok
      simp [retryRpcAux, hok, delaysFrom]
  | succ n ih =>
    intro fuel attempt sleeps hfail hok hle hfuel
    match fuel, hfuel with
    | fuel + 1, hfuel =>
      obtain ⟨e, he, hre, hff⟩ := hfail 0 (Nat.succ_pos n)
      rw [Nat.add_zero] at he
      have hlt : ¬ attempt ≥ mR := by omega
      simp only [retryRpcAux, he]
      rw [if_neg (by simp [hff, hre]; omega)]
      rw [ih fuel (attempt + 1) (sleeps ++ [backoffDelay bD attempt (rand attempt)])
        (fun k hk => by
          have := hfail (k + 1) (by omega)
          rwa [show attempt + (k + 1) = attempt + 1 + k by omega] at this)
        (by rwa [show attempt + 1 + n = attempt + (n + 1) by omega])
        (by omega) (by omega)]
      rw [delaysFrom]
      simp [List.append_assoc]
      omega

theorem retryRpcAux_fail {α : Type} (errs : Nat → Err) (mR bD : Nat) (rand : Nat → ℚ) :
    ∀ (fuel attempt : Nat) (sleeps : List ℤ),
      (∀ k, isRetryableError (errs k) = true ∧ failFast (errs k) = false) →
      attempt ≤ mR → mR - attempt < fuel →
      (retryRpcAux (fun k => (.error (errs k) : Except Err α))
          mR bD rand fuel attempt sleeps).result = .error (errs mR) ∧
      (retryRpcAux (fun k => (.error (errs k) : Except Err α))
          mR bD rand fuel attempt sleeps).calls = mR + 1 := by
  intro fuel
  induction fuel with
  | zero => intro attempt sleeps hall hle hf; omega
  | succ fuel ih =>
    intro attempt sleeps hall hle hf
    obtain ⟨hre, hff⟩ := hall attempt
    by_cases hmax : attempt ≥ mR
    · have hq : attempt = mR := le_antisymm hle hmax
      subst hq
      simp [retryRpcAux, hre, hff]
    · simp only [retryRpcAux]
      rw [if_neg (by simp [hff, hre]; omega)]
      exact ih (attempt + 1) _ hall (by omega) (by omega)

/- ## Claim C6 -/

/- A typical retryable, non-fail-fast network error. -/
def sockErr : Err := ⟨none, "", "socket hang up"⟩

/-- C6 counterexample: with maxRetries = 1 and an operation that fails once
with a retryable, non-fail-fast error and then succeeds (so N = 1 ≥
maxRetries), retryRpc returns the success value instead of rethrowing the
error; and with the operation failing on every call, the error is rethrown
only after 2 calls, not after maxRetries = 1 attempts. -/
theorem C6_counterexample :
    (retryRpc (fun k => if k = 0 then .error sockErr else .ok 42)
        1 500 (fun _ => 0)).result = .ok 42 ∧
    (retryRpc (fun _ => (.error sockErr : Except Err Nat))
        1 500 (fun _ => 0)).calls = 2 := by
  exact ⟨rfl, rfl⟩

/-- C6 (amended): an operation that fails N times with retryable,
non-fail-fast errors and then succeeds, with N ≤ maxRetries, returns the
success value after N retries (N + 1 calls); an operation that fails on every
call with such errors has its last observed error (the one from attempt index
maxRetries) rethrown after maxRetries + 1 calls, i.e. after maxRetries
retries. -/
theorem C6_retry_semantics :
    (∀ (α : Type) (mR bD : Nat) (rand : Nat → ℚ) (errs : Nat → Err) (v : α) (N : Nat),
      N ≤ mR →
      (∀ k, k < N → isRetryableError (errs k) = true ∧ failFast (errs k) = false) →
      retryRpc (fun k => if k < N then .error (errs k) else .ok v) mR bD rand =
        ⟨.ok v, N + 1, delaysFrom bD rand 0 N⟩) ∧
    (∀ (α : Type) (mR bD : Nat) (rand : Nat → ℚ) (errs : Nat → Err),
      (∀ k, isRetryableError (errs k) = true ∧ failFast (errs k) = false) →
      (retryRpc (fun k => (.error (errs k) : Except Err α)) mR bD rand).result =
        .error (errs mR) ∧
      (retryRpc (fun k => (.error (errs k) : Except Err α)) mR bD rand).calls = mR + 1) := by
  constructor
  · intro α mR bD rand errs v N hle hfail
    unfold retryRpc
    rw [retryRpcAux_ok (fun k => if k < N then .error (errs k) else .ok v) mR bD rand v N
      (mR + 1) 0 []
      (fun k hk => ⟨errs k, by simp [Nat.zero_add, hk], (hfail k hk).1, (hfail k hk).2⟩)
      (by simp) (by omega) (by omega)]
    simp
  · intro α mR bD rand errs hall
    exact retryRpcAux_fail errs mR bD rand (mR + 1) 0 [] hall (by omega) (by omega)

/-- C6 witness: with maxRetries = 2, an operation failing twice with a
retryable socket error then succeeding returns 7 after 2 retries (3 calls);
an always-failing operation has the socket error rethrown after 3 calls. -/
theorem C6_retry_semantics_witness :
    retryRpc (fun k => if k < 2 then .error sockErr else .ok 7)
        2 500 (fun _ => 0) =
      ⟨.ok 7, 3, delaysFrom 500 (fun _ => 0) 0 2⟩ ∧
    ((retryRpc (fun _ => (.error sockErr : Except Err Nat))
        2 500 (fun _ => 0)).result = .error sockErr ∧
      (retryRpc (fun _ => (.error sockErr : Except Err Nat))
        2 500 (fun _ => 0)).calls = 3) := by
  have hre : isRetryableError sockErr = true := by decide
  have hff : failFast sockErr = false := by decide
  exact ⟨C6_retry_semantics.1 Nat 2 500 (fun _ => 0) (fun _ => sockErr) 7 2
      (by omega) (fun k _ => ⟨hre, hff⟩),
    C6_retry_semantics.2 Nat 2 500 (fun _ => 0) (fun _ => sockErr)
      (fun _ => ⟨hre, hff⟩)⟩

/- ## Claim C7 -/

/- The backoff delay formula as the specification words it:
   min(baseDelay × 2^attempt, 15000ms) × jitter. -/
def specStatedDelay (baseDelayMs attempt : Nat) (jitter : ℚ) : ℚ :=
  ((min (baseDelayMs * 2 ^ attempt) 15000 : Nat) : ℚ) * jitter

/-- C7 counterexample: at baseDelay 500ms and attempt 5 with jitter 1.10 (a
value inside [1.10, 1.25]), the claim's formula gives 15000 × 1.10 = 16500
while the code sleeps 15000: the code floors the jittered product and caps it
again at 15000, which the claimed formula omits. -/
theorem C7_counterexample :
    (11 / 10 : ℚ) ≤ jitterMult 0 ∧ jitterMult 0 ≤ 5 / 4 ∧
    ((backoffDelay 500 5 0 : ℚ) ≠ specStatedDelay 500 5 (jitterMult 0)) := by
  refine ⟨by norm_num [jitterMult], by norm_num [jitterMult], ?_⟩
  have h1 : backoffDelay 500 5 0 = 15000 := by
    norm_num [backoffDelay, jitterMult, MAX_DELAY_MS]
  have h2 : specStatedDelay 500 5 (jitterMult 0) = 16500 := by
    norm_num [specStatedDelay, jitterMult]
  rw [h1, h2]
  norm_num

/-- C7 (amended): the delay slept before retry a equals
min(floor(min(baseDelay × 2^a, 15000) × jitter_a), 15000) — the claimed
product, floored and capped again at 15000 — where jitter_a = 1.10 + r_a ×
0.15 for the uniform draw r_a ∈ [0, 1), so jitter lies in [1.10, 1.25); and
every slept delay is at most 15000ms. -/
theorem C7_backoff_formula :
    (∀ (α : Type) (mR bD : Nat) (rand : Nat → ℚ) (errs : Nat → Err) (v : α) (N : Nat),
      N ≤ mR →
      (∀ k, k < N → isRetryableError (errs k) = true ∧ failFast (errs k) = false) →
      (retryRpc (fun k => if k < N then .error (errs k) else .ok v) mR bD rand).sleeps =
        (List.range N).map (fun a => backoffDelay bD a (rand a))) ∧
    (∀ r : ℚ, 0 ≤ r → r < 1 → 11 / 10 ≤ jitterMult r ∧ jitterMult r < 5 / 4) ∧
    (∀ (bD a : Nat) (r : ℚ), backoffDelay bD a r ≤ 15000) := by
  refine ⟨?_, ?_, ?_⟩
  · intro α mR bD rand errs v N hle hfail
    unfold retryRpc
    rw [retryRpcAux_ok (fun k => if k < N then .error (errs k) else .ok v) mR bD rand v N
      (mR + 1) 0 []
      (fun k hk => ⟨errs k, by simp [hk], (hfail k hk).1, (hfail k hk).2⟩)
      (by simp) (by omega) (by omega)]
    simp [delaysFrom_eq_range_map]
  · intro r h0 h1
    unfold jitterMult
    constructor
    · nlinarith
    · nlinarith
  · intro bD a r
    unfold backoffDelay MAX_DELAY_MS
    exact min_le_right _ _

/-- C7 witness: the amended formula evaluated concretely — one retried
failure at baseDelay 500 sleeps the list given by backoffDelay, the jitter
multiplier at draw 1/2 is within [1.10, 1.25), and a delay is ≤ 15000. -/
theorem C7_backoff_formula_witness :
    (retryRpc (fun k => if k < 1 then .error sockErr else .ok 7) 2 500
        (fun _ => 0)).sleeps = (List.range 1).map (fun a => backoffDelay 500 a 0) ∧
    ((11 / 10 : ℚ) ≤ jitterMult (1 / 2) ∧ jitterMult (1 / 2) < 5 / 4) ∧
    backoffDelay 500 0 0 ≤ 15000 := by
  have hre : isRetryableError sockErr = true := by decide
  have hff : failFast sockErr = false := by decide
  exact ⟨C7_backoff_formula.1 Nat 2 500 (fun _ => 0) (fun _ => sockErr) 7 1 (by omega)
      (fun k _ => ⟨hre, hff⟩),
    C7_backoff_formula.2.1 (1 / 2) (by norm_num) (by norm_num),
    C7_backoff_formula.2.2 500 0 0⟩

/- ## Claim C10 -/

/-- C10: fail-fast classification takes precedence over retryability: an
error satisfying the fail-fast predicate — even one also satisfying the
retryable predicate — is rethrown on the first failing call, after exactly one
call, with no backoff sleep and no retry. -/
theorem C10_failfast_precedence :
    ∀ (α : Type) (mR bD : Nat) (rand : Nat → ℚ) (ops : Nat → Except Err α) (e : Err),
      ops 0 = .error e → failFast e = true → isRetryableError e = true →
      retryRpc ops mR bD rand = ⟨.error e, 1, []⟩ := by
  intro α mR bD rand ops e h0 hff hre
  unfold retryRpc
  simp only [retryRpcAux, h0]
  rw [if_pos (by simp [hff])]

/- An error with HTTP status 500 (retryable) whose message names insufficient
   funds (fail-fast). -/
def bothErr : Err := ⟨some 500, "", "insufficient funds"⟩

/-- C10 witness: bothErr is both fail-fast and retryable, and retryRpc with
an operation failing with it rethrows after one call with no sleeps. -/
theorem C10_failfast_precedence_witness :
    failFast bothErr = true ∧ isRetryableError bothErr = true ∧
    retryRpc (fun _ => (.error bothErr : Except Err Nat)) 3 500 (fun _ => 0) =
      ⟨.error bothErr, 1, []⟩ := by
  refine ⟨by decide, by decide, ?_⟩
  exact C10_failfast_precedence Nat 3 500 (fun _ => 0) _ bothErr rfl (by decide) (by decide)

/- ## Claim C3 -/

/-- C3: in every pipeline execution, any confirmation wait on a transaction
hash is preceded in the trace by the durable write persisting status Broadcast
with that hash: the Broadcast checkpoint is issued and completed before the
wait begins. -/
theorem C3_broadcast_before_wait :
    ∀ inp : PipeIn, broadcastBeforeWait [] (pipeline inp).1 = true := by
  intro inp
  unfold pipeline tryBlock catchAllRun
  repeat' split
  all_goals simp [broadcastBeforeWait]

/- ## Claim C5 -/

/-- C5: when the pipeline reaches the confirmation wait and the wait fails
with a timeout-classified error, the handler returns normally (the job is
acknowledged, no exception is rethrown), writes no Failed row, and the row —
replaying the trace from any starting row — is left at status Broadcast with
the submitted transaction hash; the configured wait bound defaults to
120000ms. -/
theorem C5_timeout_graceful :
    ∀ (inp : PipeIn) (e : Err) (h : String) (fd : FeeData) (bal : Nat) (r0 : Row),
      inp.addrValid = true → inp.lockGot = true →
      inp.feeRes = .ok fd → inp.balRes = .ok bal →
      inp.amountWei + (getFeeSuggestion fd).maxFeePerGas * resolvedGasLimit inp ≤ bal →
      inp.sendRes = .ok h →
      inp.waitRes = .error e →
      strContains (strLower e.msg) "timeout" = true →
      (pipeline inp).1 = [.sendTx h, .dbBroadcastWrite h, .waitStart h, .lockRelease] ∧
      (pipeline inp).2 = .ok ∧
      (∀ reason, Ev.dbFailedWrite reason ∉ (pipeline inp).1) ∧
      (runEvs r0 (pipeline inp).1).status = .broadcast ∧
      (runEvs r0 (pipeline inp).1).tx_hash = some h ∧
      TX_WAIT_TIMEOUT_MS = 120000 := by
  intro inp e h fd bal r0 hav hlg hfee hbal hble hsend hwait ht
  have hnl : ¬ (bal < inp.amountWei +
      (getFeeSuggestion fd).maxFeePerGas * resolvedGasLimit inp) := by omega
  have htrace : pipeline inp =
      ([.sendTx h, .dbBroadcastWrite h, .waitStart h, .lockRelease], .ok) := by
    unfold pipeline tryBlock catchAllRun
    simp [hav, hlg, hfee, hbal, hsend, hwait, ht, hnl]
  rw [htrace]
  refine ⟨rfl, rfl, ?_, ?_, ?_, rfl⟩
  · intro reason
    simp
  · simp [runEvs, applyEv, markBroadcast]
  · simp [runEvs, applyEv, markBroadcast]

/-- C5 witness: a concrete execution that submits hash "0x111" and then times
out leaves the row Broadcast with that hash and acknowledges the job. -/
theorem C5_timeout_graceful_witness :
    (pipeline ⟨true, true, 20000, 21000, .ok 21000, .ok ⟨some 5, some 1, some 7⟩,
        .ok 1000000000, .ok "0x111", .error ⟨none, "", "timeout"⟩⟩).1 =
      [.sendTx "0x111", .dbBroadcastWrite "0x111", .waitStart "0x111", .lockRelease] ∧
    (pipeline ⟨true, true, 20000, 21000, .ok 21000, .ok ⟨some 5, some 1, some 7⟩,
        .ok 1000000000, .ok "0x111", .error ⟨none, "", "timeout"⟩⟩).2 = .ok ∧
    (runEvs ⟨1, .queued, none, none⟩
        (pipeline ⟨true, true, 20000, 21000, .ok 21000, .ok ⟨some 5, some 1, some 7⟩,
          .ok 1000000000, .ok "0x111", .error ⟨none, "", "timeout"⟩⟩).1).status =
      .broadcast := by
  have hmain := C5_timeout_graceful
    ⟨true, true, 20000, 21000, .ok 21000, .ok ⟨some 5, some 1, some 7⟩,
      .ok 1000000000, .ok "0x111", .error ⟨none, "", "timeout"⟩⟩
    ⟨none, "", "timeout"⟩ "0x111" ⟨some 5, some 1, some 7⟩ 1000000000
    ⟨1, .queued, none, none⟩ rfl rfl rfl rfl (by decide) rfl rfl (by decide)
  exact ⟨hmain.1, hmain.2.1, hmain.2.2.2.1⟩

/- ## Claim C8 -/

/-- C8: when an exception escapes the post-validation steps (fee query,
balance check, submission, non-timeout wait failure — gas-estimation errors
never escape, they fall back to the constant limit), the handler persists
status Failed with the reason truncated to at most 400 characters and then
terminates with a rethrow exactly when the error is retryable and not
permanent; permanent and unclassified errors are swallowed after the Failed
write (the job is acknowledged, no redelivery). -/
theorem C8_failure_handling :
    (∀ e : Err, (formatReason e).length ≤ 400) ∧
    (∀ e : Err, classifyEscape e = .thrown e ↔
      (isRetryableError e = true ∧ isPermanentError e = false)) ∧
    (∀ (inp : PipeIn) (e : Err), inp.addrValid = true → inp.lockGot = true →
      inp.feeRes = .error e →
      pipeline inp = ([.dbFailedWrite (formatReason e), .lockRelease], classifyEscape e)) ∧
    (∀ (inp : PipeIn) (e : Err) (fd : FeeData), inp.addrValid = true → inp.lockGot = true →
      inp.feeRes = .ok fd → inp.balRes = .error e →
      pipeline inp = ([.dbFailedWrite (formatReason e), .lockRelease], classifyEscape e)) ∧
    (∀ (inp : PipeIn) (fd : FeeData) (bal : Nat), inp.addrValid = true → inp.lockGot = true →
      inp.feeRes = .ok fd → inp.balRes = .ok bal →
      bal < inp.amountWei + (getFeeSuggestion fd).maxFeePerGas * resolvedGasLimit inp →
      pipeline inp = ([.dbFailedWrite (formatReason insufficientErr), .lockRelease],
        classifyEscape insufficientErr) ∧
      classifyEscape insufficientErr = .ok) ∧
    (∀ (inp : PipeIn) (e : Err) (fd : FeeData) (bal : Nat), inp.addrValid = true →
      inp.lockGot = true → inp.feeRes = .ok fd → inp.balRes = .ok bal →
      inp.amountWei + (getFeeSuggestion fd).maxFeePerGas * resolvedGasLimit inp ≤ bal →
      inp.sendRes = .error e →
      pipeline inp = ([.dbFailedWrite (formatReason e), .lockRelease], classifyEscape e)) ∧
    (∀ (inp : PipeIn) (e : Err) (fd : FeeData) (bal : Nat) (h : String), inp.addrValid = true →
      inp.lockGot = true → inp.feeRes = .ok fd → inp.balRes = .ok bal →
      inp.amountWei + (getFeeSuggestion fd).maxFeePerGas * resolvedGasLimit inp ≤ bal →
      inp.sendRes = .ok h → inp.waitRes = .error e →
      strContains (strLower e.msg) "timeout" = false →
      pipeline inp = ([.sendTx h, .dbBroadcastWrite h, .waitStart h,
        .dbFailedWrite (formatReason e), .lockRelease], classifyEscape e)) := by
  refine ⟨?_, ?_, ?_, ?_, ?_, ?_, ?_⟩
  · intro e
    simp only [formatReason, String.length]
    simp [List.length_take]
  · intro e
    by_cases hp : isPermanentError e
    · simp [classifyEscape, hp]
    · by_cases hr : isRetryableError e
      · simp [classifyEscape, hp, hr]
      · simp [classifyEscape, hp, hr]
  · intro inp e hav hlg hfee
    unfold pipeline tryBlock catchAllRun
    simp [hav, hlg, hfee]
  · intro inp e fd hav hlg hfee hbal
    unfold pipeline tryBlock catchAllRun
    simp [hav, hlg, hfee, hbal]
  · intro inp fd bal hav hlg hfee hbal hlt
    refine ⟨?_, by decide⟩
    unfold pipeline tryBlock catchAllRun
    simp [hav, hlg, hfee, hbal, hlt]
  · intro inp e fd bal hav hlg hfee hbal hble hsend
    have hnl : ¬ (bal < inp.amountWei +
        (getFeeSuggestion fd).maxFeePerGas * resolvedGasLimit inp) := by omega
    unfold pipeline tryBlock catchAllRun
    simp [hav, hlg, hfee, hbal, hnl, hsend]
  · intro inp e fd bal h hav hlg hfee hbal hble hsend hwait ht
    have hnl : ¬ (bal < inp.amountWei +
        (getFeeSuggestion fd).maxFeePerGas * resolvedGasLimit inp) := by omega
    unfold pipeline tryBlock catchAllRun
    simp [hav, hlg, hfee, hbal, hnl, hsend, hwait, ht]

/-- C8 witness: the catch-all behavior on a concrete run whose submission
fails with a retryable socket error — the Failed write carries the truncated
reason and the error is rethrown for queue-level redelivery. -/
theorem C8_failure_handling_witness :
    (formatReason sockErr).length ≤ 400 ∧
    pipeline ⟨true, true, 20000, 21000, .ok 21000, .ok ⟨some 5, some 1, some 7⟩,
        .ok 1000000000, .error sockErr, .ok ()⟩ =
      ([.dbFailedWrite (formatReason sockErr), .lockRelease], classifyEscape sockErr) ∧
    classifyEscape sockErr = .thrown sockErr :=
  ⟨C8_failure_handling.1 sockErr,
   C8_failure_handling.2.2.2.2.2.1
     ⟨true, true, 20000, 21000, .ok 21000, .ok ⟨some 5, some 1, some 7⟩,
       .ok 1000000000, .error sockErr, .ok ()⟩
     sockErr ⟨some 5, some 1, some 7⟩ 1000000000 rfl rfl rfl rfl (by decide) rfl,
   (C8_failure_handling.2.1 sockErr).mpr ⟨by decide, by decide⟩⟩
